import Mathlib

/-!
Shallow embedding of `src/currency_converter.py` (a single Streamlit script).

Modelling conventions:
* Currency codes and currency-menu display names are `String`s.
* A JSON rates mapping (a Python dict from currency code to rate) is an
  association list `List (Currency × ℚ)`; rates are modelled as rationals.
* Calendar dates at day granularity are integers (a day number); `today` is a
  parameter, `start_date = today - 30` as in lines 83-84 of the source.
* One upstream HTTP interaction (`requests.get(url).json()` plus the shape of
  the parsed payload) is an `ApiOutcome`: either the request/parse raised an
  exception, or it produced a payload whose `"result"` and `"rates"` fields
  may each be present or absent (an absent field raises `KeyError` at the
  access site, which the surrounding `try` blocks catch).
* `st.stop()` / rendering is modelled by the `Rendered` record produced by
  `runScript`: each field records what the script put on the page; the
  `tableCrash` flag records that line 118 read the never-assigned variable
  `start_date` and raised `NameError`.
-/

namespace CurrencyConverter

abbrev Currency := String

/-- A parsed JSON rates mapping: Python dict from currency code to rate. -/
abbrev RatesMap := List (Currency × ℚ)

/-- Outcome of one `requests.get(url).json()` call, as far as the script can
observe it: `exn` (network error, non-JSON body, non-dict payload — anything
that raises before field access), or a parsed dict whose `"result"` and
`"rates"` fields are each possibly absent. -/
inductive ApiOutcome where
  | exn : ApiOutcome
  | parsed (result? : Option String) (rates? : Option RatesMap) : ApiOutcome
deriving DecidableEq

/-- Line 55: `rates = {cur: all_rates[cur] for cur in to_currencies if cur in all_rates}`.
The dict comprehension, in iteration order over `to_currencies`. -/
def rates (to_currencies : List Currency) (all_rates : RatesMap) : RatesMap :=
  to_currencies.filterMap fun cur => (all_rates.lookup cur).map fun r => (cur, r)

/-- Line 58: `missing = [cur for cur in to_currencies if cur not in all_rates]`. -/
def missing (to_currencies : List Currency) (all_rates : RatesMap) : List Currency :=
  to_currencies.filter fun cur => (all_rates.lookup cur).isNone

/-- Lines 46-63: the "latest" fetch stage inside `try`. `none` means the script
called `st.error(...)` and `st.stop()` (either because the exception handler at
lines 61-63 ran, or because line 50 saw `result != "success"`); `some` carries
the projected `rates` dict and `missing` list the rest of the script uses. -/
def latestStage (to_currencies : List Currency) (o : ApiOutcome) :
    Option (RatesMap × List Currency) :=
  match o with
  | .exn => none
  | .parsed result? rates? =>
    match result? with
    | none => none          -- `response["result"]` raises KeyError, caught at line 61
    | some res =>
      if res = "success" then
        match rates? with
        | none => none      -- `response["rates"]` raises KeyError, caught at line 61
        | some all_rates => some (rates to_currencies all_rates, missing to_currencies all_rates)
      else none             -- lines 50-52: st.error + st.stop

/-- What one historical day's fetch contributes for one target currency:
lines 93-97 (trend block) and lines 121-123 (table block). `none` means the
day is skipped for that currency (exception caught by the bare `except`, a
missing `"result"`/`"rates"` field, `result != "success"`, or the target
absent from the day's rates); `some r` means rate `r` is appended. -/
def dayParse (target : Currency) : ApiOutcome → Option ℚ
  | .exn => none
  | .parsed result? rates? =>
    match result? with
    | none => none
    | some res =>
      if res = "success" then
        match rates? with
        | none => none
        | some rs => rs.lookup target
      else none

/-- The 31 dates visited by `for i in range(31): date = start_date + timedelta(days=i)`
(lines 89-90 and 117-118), with `start_date = today - 30` (lines 83-84). -/
def windowDates (today : Int) : List Int :=
  (List.range 31).map fun i : ℕ => today - 30 + (i : Int)

/-- Lines 87-99 (and identically lines 115-126 per currency): the per-day loop
that accumulates `historical_rates` / `dates_list` (resp. `cur_rates` /
`cur_dates`) by appending the day's rate and date whenever the day parses. -/
def histLoop (target : Currency) (today : Int) (fetch : Int → ApiOutcome) :
    List ℚ × List Int :=
  (List.range 31).foldl
    (fun acc (i : ℕ) =>
      let date : Int := today - 30 + (i : Int)
      match dayParse target (fetch date) with
      | some r => (acc.1 ++ [r], acc.2 ++ [date])
      | none => acc)
    ([], [])

/-- Lines 113-127: `table_data[cur] = pd.Series(cur_rates, index=cur_dates)`,
one column per currency in user order. -/
def table_data (to_currencies : List Currency) (today : Int) (fetch : Int → ApiOutcome) :
    List (Currency × (List ℚ × List Int)) :=
  to_currencies.map fun cur => (cur, histLoop cur today fetch)

/-- The trace of upstream historical requests issued by the table block
(lines 114-121): the nested `for cur in to_currencies: for i in range(31):`
performs one `requests.get` per (currency, date) pair, in that order. -/
def tableCalls (to_currencies : List Currency) (today : Int) : List (Currency × Int) :=
  to_currencies.flatMap fun cur => (windowDates today).map fun d => (cur, d)

/-- One full script run's inputs: the sidebar state after any swap, plus the
upstream source (keyed by base currency, and by base and date for history). -/
structure ScriptInput where
  from_currency : Currency
  to_currencies : List Currency
  amount : ℚ
  upstreamLatest : Currency → ApiOutcome
  upstreamHist : Currency → Int → ApiOutcome
  today : Int

/-- What one script run put on the page.  `snapshot?` is the projected
(`rates`, `missing`) pair (absent when the latest fetch stage stopped the
script); `cards` are the conversion metrics of lines 71-78 (target, converted
amount); `trend?` the first-currency series of lines 87-99; `tableCrash` is
true when line 118 read the unassigned `start_date` and the table block died
with `NameError`; `table?` the multi-currency table of lines 113-127. -/
structure Rendered where
  snapshot? : Option (RatesMap × List Currency)
  cards : List (Currency × ℚ)
  trend? : Option (List ℚ × List Int)
  tableCrash : Bool
  table? : Option (List (Currency × (List ℚ × List Int)))
deriving DecidableEq

/-- Lines 46-130: the whole script after the sidebar, as a function of its
inputs. Follows the source's control flow: latest fetch stage (stop on
failure), conversion cards, trend block guarded by
`if to_currencies and to_currencies[0] in rates:` (which alone assigns
`start_date`), then the table block guarded by `if len(to_currencies) > 1:`
which reads `start_date` (NameError when the trend block did not run). -/
def runScript (inp : ScriptInput) : Rendered :=
  match latestStage inp.to_currencies (inp.upstreamLatest inp.from_currency) with
  | none => { snapshot? := none, cards := [], trend? := none, tableCrash := false, table? := none }
  | some (rs, ms) =>
    let fetch := inp.upstreamHist inp.from_currency
    let cards := inp.to_currencies.filterMap fun c => (rs.lookup c).map fun r => (c, inp.amount * r)
    let trendTarget? : Option Currency :=
      match inp.to_currencies with
      | [] => none
      | t0 :: _ => if (rs.lookup t0).isSome then some t0 else none
    let trend? := trendTarget?.map fun t0 => histLoop t0 inp.today fetch
    let start_date? : Option Int := trendTarget?.map fun _ => inp.today - 30
    if inp.to_currencies.length > 1 then
      match start_date? with
      | none =>
        { snapshot? := some (rs, ms), cards := cards, trend? := trend?,
          tableCrash := true, table? := none }
      | some _ =>
        { snapshot? := some (rs, ms), cards := cards, trend? := trend?,
          tableCrash := false, table? := some (table_data inp.to_currencies inp.today fetch) }
    else
      { snapshot? := some (rs, ms), cards := cards, trend? := trend?,
        tableCrash := false, table? := none }

/-- The sidebar currency menu of lines 13-21 (display name to code). -/
def currenciesMenu : List (String × String) :=
  [("USD 🇺🇸", "USD"), ("EUR 🇪🇺", "EUR"), ("GBP 🇬🇧", "GBP"), ("NGN 🇳🇬", "NGN"),
   ("JPY 🇯🇵", "JPY"), ("CAD 🇨🇦", "CAD"), ("AUD 🇦🇺", "AUD")]

/-- `currencies[name]` of lines 33-34 and 42-43.  The UI only ever supplies
names from the menu; off-menu names (which Python would reject with a
KeyError) default to `""` here. -/
def codeOf (name : String) : Currency :=
  (currenciesMenu.lookup name).getD ""

/-- Lines 37-43: the swap handler, acting on the sidebar state
(from-name, ordered to-name list, amount).  `if to_currency_names:` guards the
whole body, so an empty target list leaves everything unchanged; otherwise the
from-name and the index-0 target name are exchanged.  `amount` is never
touched by the handler. -/
def swapHandler (s : String × List String × ℚ) : String × List String × ℚ :=
  match s with
  | (fn, [], a) => (fn, [], a)
  | (fn, t0 :: rest, a) => (t0, fn :: rest, a)

/-- One interaction cycle: lines 33-43 then the script body.  The codes handed
to every fetch are re-derived (lines 42-43) from the post-swap names. -/
def runCycle (fn : String) (tns : List String) (a : ℚ) (swapPressed : Bool)
    (upL : Currency → ApiOutcome) (upH : Currency → Int → ApiOutcome) (today : Int) : Rendered :=
  let s := if swapPressed then swapHandler (fn, tns, a) else (fn, tns, a)
  runScript
    { from_currency := codeOf s.1, to_currencies := s.2.1.map codeOf, amount := s.2.2,
      upstreamLatest := upL, upstreamHist := upH, today := today }

/-- Success of the latest fetch as the script judges it: the payload parsed,
carries `result = "success"`, and has a `rates` field.  Exactly the outcomes
on which lines 46-63 do not stop the script. -/
def latestOk : ApiOutcome → Bool
  | .exn => false
  | .parsed result? rates? => result? == some "success" && rates?.isSome

/-! ### Helper lemmas about the snapshot projection -/

/-- The keys of the projected `rates` dict are exactly the requested targets
that the upstream mapping contains, in request order. -/
lemma rates_keys (tcs : List Currency) (ar : RatesMap) :
    (rates tcs ar).map Prod.fst = tcs.filter fun c => (ar.lookup c).isSome := by
  induction tcs with
  | nil => rfl
  | cons c t ih =>
    unfold rates at ih ⊢
    cases h : ar.lookup c <;>
      simp [List.filterMap_cons, List.filter_cons, h, ih]

/-- Membership of a key in an association list, via `lookup`. -/
lemma lookup_isSome_iff (l : RatesMap) (c : Currency) :
    (l.lookup c).isSome = true ↔ c ∈ l.map Prod.fst := by
  induction l with
  | nil => simp
  | cons p t ih =>
    by_cases h : c = p.1
    · subst h
      simp [List.lookup]
    · have hb : (c == p.1) = false := by simp [h]
      simp [List.lookup, hb, ih, h]

/-- `missing` is the complement filter of the request list. -/
lemma missing_eq_filter_not (tcs : List Currency) (ar : RatesMap) :
    missing tcs ar = tcs.filter fun c => !(ar.lookup c).isSome := by
  unfold missing
  congr 1
  funext c
  cases ar.lookup c <;> rfl

/-- C1: for every ordered list of requested target currencies and every
successful latest-rates payload (any base), the projection of lines 54-58
partitions the requested targets exactly: a requested target is a key of
`rates` iff the upstream mapping contains it and is in `missing` iff it does
not; keys-of-`rates` together with `missing` are a permutation of the request
list (nothing dropped or duplicated); the two sides are disjoint; and
`missing` is a sublist of the request list, so it preserves the caller's
requested order. -/
theorem c1_snapshot_partition (to_currencies : List Currency) (all_rates : RatesMap) :
    (∀ cur ∈ to_currencies,
        (((rates to_currencies all_rates).lookup cur).isSome = true
          ↔ (all_rates.lookup cur).isSome = true)
      ∧ (cur ∈ missing to_currencies all_rates ↔ (all_rates.lookup cur).isSome = false))
    ∧ ((rates to_currencies all_rates).map Prod.fst
        ++ missing to_currencies all_rates).Perm to_currencies
    ∧ (∀ cur, ¬(cur ∈ (rates to_currencies all_rates).map Prod.fst
        ∧ cur ∈ missing to_currencies all_rates))
    ∧ (missing to_currencies all_rates).Sublist to_currencies := by
  refine ⟨?_, ?_, ?_, ?_⟩
  · intro cur hc
    constructor
    · rw [lookup_isSome_iff, rates_keys, List.mem_filter]
      simp [hc]
    · rw [missing_eq_filter_not, List.mem_filter]
      simp [hc]
  · rw [rates_keys, missing_eq_filter_not]
    exact List.filter_append_perm _ to_currencies
  · intro cur hmem
    obtain ⟨h1, h2⟩ := hmem
    rw [rates_keys, List.mem_filter] at h1
    rw [missing_eq_filter_not, List.mem_filter] at h2
    rw [h1.2] at h2
    exact absurd h2.2 (by simp)
  · rw [missing_eq_filter_not]
    exact List.filter_sublist to_currencies

/-- Witness for C1 at the spec's own example: targets `["EUR", "NGN"]` against
upstream rates `{EUR: 0.9, JPY: 150}` put `EUR` in `rates` and `NGN` in
`missing`. -/
theorem c1_snapshot_partition_witness :
    ((rates ["EUR", "NGN"] [("EUR", 9/10), ("JPY", 150)]).lookup "EUR").isSome = true
    ∧ "NGN" ∈ missing ["EUR", "NGN"] [("EUR", 9/10), ("JPY", 150)] := by
  have h := c1_snapshot_partition ["EUR", "NGN"] [("EUR", 9/10), ("JPY", 150)]
  exact ⟨((h.1 "EUR" (by decide)).1).mpr (by decide),
         ((h.1 "NGN" (by decide)).2).mpr (by decide)⟩

/-! ### Helper lemmas about the per-day history loops -/

/-- The per-day observations (rate, date) a loop over `l` keeps, given the
per-date parse outcome `p`. -/
def keptObs (p : Int → Option ℚ) (l : List Int) : List (ℚ × Int) :=
  l.filterMap fun d => (p d).map fun r => (r, d)

/-- Unrolling the append-accumulating fold of lines 92-99 / 120-126. -/
lemma foldl_keptObs (p : Int → Option ℚ) :
    ∀ (l : List Int) (acc : List ℚ × List Int),
      l.foldl
        (fun acc d =>
          match p d with
          | some r => (acc.1 ++ [r], acc.2 ++ [d])
          | none => acc) acc
      = (acc.1 ++ (keptObs p l).map Prod.fst, acc.2 ++ (keptObs p l).map Prod.snd) := by
  intro l
  induction l with
  | nil => intro acc; simp [keptObs]
  | cons d t ih =>
    intro acc
    cases h : p d with
    | none =>
      simp only [List.foldl_cons, h]
      rw [ih]
      simp [keptObs, List.filterMap_cons, h]
    | some r =>
      simp only [List.foldl_cons, h]
      rw [ih]
      simp [keptObs, List.filterMap_cons, h, List.append_assoc]

/-- `histLoop` is the fold over the 31 window dates. -/
lemma histLoop_eq_fold_window (target : Currency) (today : Int) (fetch : Int → ApiOutcome) :
    histLoop target today fetch
      = (windowDates today).foldl
          (fun acc d =>
            match dayParse target (fetch d) with
            | some r => (acc.1 ++ [r], acc.2 ++ [d])
            | none => acc) ([], []) := by
  unfold histLoop windowDates
  rw [List.foldl_map]

/-- Closed form of the trend/table day loop: the kept observations over the
31-day window, split into the rate list and the date list. -/
lemma histLoop_eq (target : Currency) (today : Int) (fetch : Int → ApiOutcome) :
    histLoop target today fetch
      = ((keptObs (fun d => dayParse target (fetch d)) (windowDates today)).map Prod.fst,
         (keptObs (fun d => dayParse target (fetch d)) (windowDates today)).map Prod.snd) := by
  rw [histLoop_eq_fold_window, foldl_keptObs]
  simp

/-- The dates a loop keeps are the window dates whose own parse succeeded. -/
lemma keptObs_snd (p : Int → Option ℚ) (l : List Int) :
    (keptObs p l).map Prod.snd = l.filter fun d => (p d).isSome := by
  induction l with
  | nil => rfl
  | cons d t ih =>
    unfold keptObs at ih ⊢
    rw [List.filterMap_cons, List.filter_cons]
    cases h : p d with
    | none => simp [h, ih]
    | some r => simp [h, ih]

/-- Membership in the kept observations is decided by that date's own parse. -/
lemma mem_keptObs (p : Int → Option ℚ) (l : List Int) (r : ℚ) (d : Int) :
    (r, d) ∈ keptObs p l ↔ d ∈ l ∧ p d = some r := by
  unfold keptObs
  rw [List.mem_filterMap]
  constructor
  · rintro ⟨x, hx, hmap⟩
    cases h : p x with
    | none => rw [h] at hmap; exact absurd hmap (by simp)
    | some v =>
      rw [h] at hmap
      simp only [Option.map_some', Option.some_inj, Prod.mk.injEq] at hmap
      obtain ⟨hv, hd⟩ := hmap
      subst hd
      exact ⟨hx, by rw [h, hv]⟩
  · rintro ⟨hd, hp⟩
    exact ⟨d, hd, by rw [hp]; rfl⟩

/-- The window dates are strictly increasing. -/
lemma windowDates_pairwise (today : Int) : (windowDates today).Pairwise (· < ·) := by
  unfold windowDates
  refine List.Pairwise.map _ ?_ (List.pairwise_lt_range 31)
  intro a b h
  dsimp only
  omega

/-- Index characterization of the window. -/
lemma windowDates_getElem? (today : Int) (i : ℕ) (h : i < 31) :
    (windowDates today)[i]? = some (today - 30 + i) := by
  unfold windowDates
  rw [List.getElem?_map, List.getElem?_range h]
  rfl

/-- Zipping the two halves of a loop's output recovers the kept observations. -/
lemma keptObs_zip (p : Int → Option ℚ) (l : List Int) :
    ((keptObs p l).map Prod.fst).zip ((keptObs p l).map Prod.snd) = keptObs p l := by
  rw [List.zip_map']
  have h : (fun x : ℚ × Int => (x.1, x.2)) = id := funext fun x => rfl
  rw [h, List.map_id]

/-- A loop whose every day parses to the same rate keeps every date. -/
lemma keptObs_const_some (r : ℚ) (l : List Int) :
    keptObs (fun _ => some r) l = l.map fun d => (r, d) := by
  induction l with
  | nil => rfl
  | cons d t ih =>
    unfold keptObs at ih ⊢
    simp only [List.filterMap_cons, Option.map_some', List.map_cons] at ih ⊢
    rw [ih]

/-- The 31 window dates are pairwise distinct. -/
lemma windowDates_nodup (today : Int) : (windowDates today).Nodup :=
  (windowDates_pairwise today).imp fun h => ne_of_lt h

/-- C7: the historical window of lines 83-90 is the inclusive range
`[today - 30, today]`: the loop visits exactly 31 dates, the i-th visited date
is `today - 30 + i`, the first is `today - 30` and the last is `today`; and
against an upstream that succeeds on every date with a fixed rate `r`
containing the target, the loop returns exactly 31 observations, all with rate
`r`, whose dates are exactly the window. -/
theorem c7_window_31_days (today : Int) (target : Currency) (r : ℚ) :
    (windowDates today).length = 31
    ∧ (windowDates today).head? = some (today - 30)
    ∧ (windowDates today).getLast? = some today
    ∧ (∀ i : ℕ, i < 31 → (windowDates today)[i]? = some (today - 30 + i))
    ∧ histLoop target today (fun _ => ApiOutcome.parsed (some "success") (some [(target, r)]))
        = (List.replicate 31 r, windowDates today) := by
  have hlen : (windowDates today).length = 31 := by simp [windowDates]
  refine ⟨hlen, ?_, ?_, fun i h => windowDates_getElem? today i h, ?_⟩
  · rw [List.head?_eq_getElem?, windowDates_getElem? today 0 (by norm_num)]
    norm_num
  · rw [List.getLast?_eq_getElem?, hlen, windowDates_getElem? today 30 (by norm_num)]
    simp only [Option.some_inj]
    push_cast
    ring
  · rw [histLoop_eq]
    have hfun :
        (fun d : Int => dayParse target
            ((fun _ : Int => ApiOutcome.parsed (some "success") (some [(target, r)])) d))
          = fun _ : Int => some r := by
      funext d
      simp [dayParse, List.lookup]
    rw [hfun, keptObs_const_some]
    have h1 : ((windowDates today).map fun d => (r, d)).map Prod.fst = List.replicate 31 r := by
      rw [List.map_map]
      have hc : (Prod.fst ∘ fun d : Int => (r, d)) = fun _ : Int => r := rfl
      rw [hc, List.map_const', hlen]
    have h2 : ((windowDates today).map fun d => (r, d)).map Prod.snd = windowDates today := by
      rw [List.map_map]
      have hc : (Prod.snd ∘ fun d : Int => (r, d)) = id := rfl
      rw [hc, List.map_id]
    rw [h1, h2]

/-- Witness for C7 at `today = 0`: the sixth visited date is day `-25` and the
last is day `0` itself. -/
theorem c7_window_31_days_witness :
    (windowDates 0)[5]? = some (-25) ∧ (windowDates 0).getLast? = some 0 := by
  have h := c7_window_31_days 0 "EUR" 1
  refine ⟨?_, h.2.2.1⟩
  have h5 := h.2.2.2.1 5 (by norm_num)
  simpa using h5

/-- C8: any series either history loop produces (the trend loop for any target
and any fetch pattern, and every column of the multi-currency table) has
strictly increasing observation dates. -/
theorem c8_dates_strictly_increasing (target : Currency) (today : Int)
    (fetch : Int → ApiOutcome) (to_currencies : List Currency) :
    (histLoop target today fetch).2.Pairwise (· < ·)
    ∧ ∀ cur series, (cur, series) ∈ table_data to_currencies today fetch →
        series.2.Pairwise (· < ·) := by
  have key : ∀ t : Currency, (histLoop t today fetch).2.Pairwise (· < ·) := by
    intro t
    rw [histLoop_eq]
    dsimp only
    rw [keptObs_snd]
    exact List.Pairwise.sublist (List.filter_sublist _) (windowDates_pairwise today)
  refine ⟨key target, ?_⟩
  intro cur series hmem
  unfold table_data at hmem
  rw [List.mem_map] at hmem
  obtain ⟨c, hc, heq⟩ := hmem
  simp only [Prod.mk.injEq] at heq
  obtain ⟨h1, h2⟩ := heq
  rw [← h2]
  exact key c

/-- Witness for C8: a mixed success/failure upstream, via the table column of
the single selected currency. -/
theorem c8_dates_strictly_increasing_witness :
    (histLoop "EUR" 0 (fun d => if d = -30 then ApiOutcome.exn
        else ApiOutcome.parsed (some "success") (some [("EUR", 1)]))).2.Pairwise (· < ·) :=
  (c8_dates_strictly_increasing "EUR" 0
      (fun d => if d = -30 then ApiOutcome.exn
        else ApiOutcome.parsed (some "success") (some [("EUR", 1)])) ["EUR"]).2
    "EUR" _ (by simp [table_data])

/-- C5: a per-date failure is absorbed locally.  For any fetch pattern and any
window date: if that date's own parse fails (exception, non-success payload,
or target absent) the date merely contributes no observation; if it succeeds
with rate `r`, the observation `(r, d)` is in the loop's output no matter what
every other date did; and in the table path every requested currency's column
is still produced. -/
theorem c5_per_date_failure_local (target : Currency) (today : Int)
    (fetch : Int → ApiOutcome) (to_currencies : List Currency) (d : Int)
    (hd : d ∈ windowDates today) :
    (dayParse target (fetch d) = none → d ∉ (histLoop target today fetch).2)
    ∧ (∀ r : ℚ, dayParse target (fetch d) = some r →
        d ∈ (histLoop target today fetch).2
        ∧ (r, d) ∈ (histLoop target today fetch).1.zip (histLoop target today fetch).2)
    ∧ (∀ cur ∈ to_currencies,
        (cur, histLoop cur today fetch) ∈ table_data to_currencies today fetch) := by
  refine ⟨?_, ?_, ?_⟩
  · intro hnone hmem
    rw [histLoop_eq] at hmem
    dsimp only at hmem
    rw [keptObs_snd, List.mem_filter, hnone] at hmem
    exact absurd hmem.2 (by simp)
  · intro r hr
    constructor
    · rw [histLoop_eq]
      dsimp only
      rw [keptObs_snd, List.mem_filter]
      exact ⟨hd, by rw [hr]; rfl⟩
    · rw [histLoop_eq]
      dsimp only
      rw [keptObs_zip, mem_keptObs]
      exact ⟨hd, hr⟩
  · intro cur hc
    unfold table_data
    exact List.mem_map_of_mem _ hc

/-- An upstream whose fetch raises for day `-30` only and otherwise succeeds
with EUR at rate 1 (base day `today = 0`). -/
def oneBadDay : Int → ApiOutcome := fun d =>
  if d = -30 then ApiOutcome.exn
  else ApiOutcome.parsed (some "success") (some [("EUR", 1)])

/-- Witness for C5: with only day `-30` failing, day `-30` is absent from the
trend series while day `0` (today) still contributes its observation. -/
theorem c5_per_date_failure_local_witness :
    (-30 : Int) ∉ (histLoop "EUR" 0 oneBadDay).2
    ∧ ((1 : ℚ), (0 : Int)) ∈ (histLoop "EUR" 0 oneBadDay).1.zip (histLoop "EUR" 0 oneBadDay).2 :=
  ⟨(c5_per_date_failure_local "EUR" 0 oneBadDay ["EUR"] (-30) (by decide)).1 (by decide),
   ((c5_per_date_failure_local "EUR" 0 oneBadDay ["EUR"] 0 (by decide)).2.1 1 (by decide)).2⟩

/-- An upstream whose fetch raises for the five dates `-30 … -26` of the
window based at `today = 0` and succeeds with EUR at rate 1 otherwise. -/
def fiveBadDays : Int → ApiOutcome := fun d =>
  if d ≤ -26 then ApiOutcome.exn
  else ApiOutcome.parsed (some "success") (some [("EUR", 1)])

/-- C3 (evaluating the code at the failing input): with exactly 5 of the 31
window dates failing, the loop of lines 87-99 yields 26 observations and
nothing else — its entire output is the rate list and the date list.  The
bare `except: continue` (lines 98-99) counts nothing, so no failure counter
equal to 5 exists anywhere in the script's state or output. -/
theorem c3_five_failures_only_skip :
    ((windowDates 0).filter fun d => (dayParse "EUR" (fiveBadDays d)).isNone).length = 5
    ∧ (histLoop "EUR" 0 fiveBadDays).2.length = 26
    ∧ (histLoop "EUR" 0 fiveBadDays).1.length = 26 := by
  decide

/-- C2 counterexample: with the two requested targets `["USD", "EUR"]` the
table block issues 62 historical requests — two per window date — not the 31
(one per date) the claim states. -/
theorem c2_counterexample :
    ¬ ((tableCalls ["USD", "EUR"] 0).length = 31)
    ∧ ((tableCalls ["USD", "EUR"] 0).filter fun c => c.2 == (0 : Int)).length = 2
    ∧ (tableCalls ["USD", "EUR"] 0).length = 62 := by
  decide

/-- The table block's request count grows linearly with the target count. -/
lemma tableCalls_length (tcs : List Currency) (today : Int) :
    (tableCalls tcs today).length = tcs.length * 31 := by
  induction tcs with
  | nil => rfl
  | cons c t ih =>
    unfold tableCalls at ih ⊢
    rw [List.flatMap_cons, List.length_append, ih]
    have hw : ((windowDates today).map fun d => (c, d)).length = 31 := by simp [windowDates]
    rw [hw, List.length_cons]
    ring

/-- Each window date is requested once per target currency by the table block. -/
lemma tableCalls_count_date (tcs : List Currency) (today : Int) (d : Int)
    (hd : d ∈ windowDates today) :
    ((tableCalls tcs today).filter fun c => c.2 == d).length = tcs.length := by
  induction tcs with
  | nil => rfl
  | cons c t ih =>
    unfold tableCalls at ih ⊢
    rw [List.flatMap_cons, List.filter_append, List.length_append, ih]
    have hone : (((windowDates today).map fun x => (c, x)).filter fun p => p.2 == d).length = 1 := by
      rw [List.filter_map]
      rw [List.length_map]
      have hcount : ((windowDates today).filter fun x => x == d).length = 1 := by
        rw [← List.countP_eq_length_filter]
        have := List.count_eq_one_of_mem (windowDates_nodup today) hd
        simpa [List.count] using this
      simpa [Function.comp] using hcount
    rw [hone, List.length_cons]
    omega

/-- C2 amended: the multi-currency table block of lines 111-127 issues one
upstream fetch per (target, date) pair — `31 × |targets|` requests in all,
each window date fetched once per requested currency; the per-date response
is not shared across targets. -/
theorem c2_one_call_per_date_target_pair (to_currencies : List Currency) (today : Int) :
    (tableCalls to_currencies today).length = to_currencies.length * 31
    ∧ ∀ d ∈ windowDates today,
        ((tableCalls to_currencies today).filter fun c => c.2 == d).length
          = to_currencies.length :=
  ⟨tableCalls_length to_currencies today,
   fun d hd => tableCalls_count_date to_currencies today d hd⟩

/-- Witness for the amended C2 at two targets: 62 calls in all, and today's
date (day 0) fetched twice. -/
theorem c2_one_call_per_date_target_pair_witness :
    (tableCalls ["USD", "EUR"] 0).length = 2 * 31
    ∧ ((tableCalls ["USD", "EUR"] 0).filter fun c => c.2 == (0 : Int)).length = 2 :=
  ⟨(c2_one_call_per_date_target_pair ["USD", "EUR"] 0).1,
   (c2_one_call_per_date_target_pair ["USD", "EUR"] 0).2 0 (by decide)⟩

/-- The latest-fetch stage stops the script exactly on the non-success
outcomes. -/
lemma latestStage_isNone (tcs : List Currency) (o : ApiOutcome) :
    latestStage tcs o = none ↔ latestOk o = false := by
  cases o with
  | exn => simp [latestStage, latestOk]
  | parsed r? rs? =>
    cases r? with
    | none => simp [latestStage, latestOk]
    | some res =>
      by_cases h : res = "success"
      · subst h
        cases rs? with
        | none => simp [latestStage, latestOk]
        | some ar => simp [latestStage, latestOk]
      · simp [latestStage, latestOk, h]

/-- C6: a latest-rates outcome that is not a success (transport/parse
exception, missing or non-success `result` field, missing `rates` field)
stops the conversion cycle with nothing rendered — no snapshot, no cards, no
trend, no table; conversely, on a success outcome the cycle proceeds and the
projected snapshot is rendered. -/
theorem c6_latest_failure_fatal (inp : ScriptInput) :
    (latestOk (inp.upstreamLatest inp.from_currency) = false →
      runScript inp = { snapshot? := none, cards := [], trend? := none,
                        tableCrash := false, table? := none })
    ∧ (latestOk (inp.upstreamLatest inp.from_currency) = true →
      (runScript inp).snapshot?.isSome = true) := by
  constructor
  · intro h
    have heq : latestStage inp.to_currencies (inp.upstreamLatest inp.from_currency) = none :=
      (latestStage_isNone _ _).mpr h
    unfold runScript
    rw [heq]
  · intro h
    have hsome : ∃ snap, latestStage inp.to_currencies (inp.upstreamLatest inp.from_currency)
        = some snap := by
      cases hs : latestStage inp.to_currencies (inp.upstreamLatest inp.from_currency) with
      | none =>
        have hf := (latestStage_isNone _ _).mp hs
        rw [h] at hf
        exact absurd hf (by simp)
      | some snap => exact ⟨snap, rfl⟩
    obtain ⟨⟨rs, ms⟩, hsnap⟩ := hsome
    unfold runScript
    rw [hsnap]
    dsimp only
    split
    · split <;> rfl
    · rfl

/-- A cycle whose latest fetch raises before parsing. -/
def failingLatestInput : ScriptInput where
  from_currency := "USD"
  to_currencies := ["EUR"]
  amount := 1
  upstreamLatest := fun _ => ApiOutcome.exn
  upstreamHist := fun _ _ => ApiOutcome.exn
  today := 0

/-- Witness for C6: the raising latest fetch renders nothing at all. -/
theorem c6_latest_failure_fatal_witness :
    runScript failingLatestInput
      = { snapshot? := none, cards := [], trend? := none,
          tableCrash := false, table? := none } :=
  (c6_latest_failure_fatal failingLatestInput).1 (by decide)

/-- A reachable cycle: two targets selected, successful latest response, but
the first selected target (`EUR`) absent from the upstream rates. -/
def crashInput : ScriptInput where
  from_currency := "USD"
  to_currencies := ["EUR", "GBP"]
  amount := 1
  upstreamLatest := fun _ => ApiOutcome.parsed (some "success") (some [("GBP", 2)])
  upstreamHist := fun _ _ => ApiOutcome.exn
  today := 0

/-- C4: on a reachable input — more than one target selected, latest fetch
successful, first selected target absent from its rates — the trend block's
guard (line 81) is false, so its assignment to `start_date` (line 84) never
runs, and the table block (entered because `len(to_currencies) > 1`) reads
the unassigned `start_date` at line 118: the run crashes with `NameError`
instead of producing the table. -/
theorem c4_start_date_name_error :
    crashInput.to_currencies.length > 1
    ∧ latestOk (crashInput.upstreamLatest crashInput.from_currency) = true
    ∧ (match crashInput.upstreamLatest crashInput.from_currency with
       | ApiOutcome.parsed _ (some ar) => (ar.lookup "EUR").isNone
       | _ => false) = true
    ∧ (runScript crashInput).tableCrash = true
    ∧ (runScript crashInput).table? = none := by
  decide

/-- C9: the swap handler of lines 37-43 exchanges the base with the first
target, leaves positions 1..n-1 of the target list unchanged, never touches
the amount, is a no-op on an empty target list — and the cycle's fetches run
on the post-swap state (the codes are re-derived from the swapped names
before the first request is issued). -/
theorem c9_swap_exchanges_base_and_first_target (fn t0 : String) (rest : List String)
    (a : ℚ) (tns : List String) (upL : Currency → ApiOutcome)
    (upH : Currency → Int → ApiOutcome) (today : Int) :
    swapHandler (fn, t0 :: rest, a) = (t0, fn :: rest, a)
    ∧ swapHandler (fn, [], a) = (fn, [], a)
    ∧ runCycle fn tns a true upL upH today
        = runScript { from_currency := codeOf (swapHandler (fn, tns, a)).1,
                      to_currencies := (swapHandler (fn, tns, a)).2.1.map codeOf,
                      amount := (swapHandler (fn, tns, a)).2.2,
                      upstreamLatest := upL, upstreamHist := upH, today := today } :=
  ⟨rfl, rfl, rfl⟩

/-- The spec's end-to-end example: base USD, targets EUR and NGN, amount 10,
latest rates `{EUR: 0.9, JPY: 150}`; the historical upstream raises. -/
def endToEndInput : ScriptInput where
  from_currency := "USD"
  to_currencies := ["EUR", "NGN"]
  amount := 10
  upstreamLatest := fun _ =>
    ApiOutcome.parsed (some "success") (some [("EUR", 9/10), ("JPY", 150)])
  upstreamHist := fun _ _ => ApiOutcome.exn
  today := 0

/-- C10: on the spec's example the cycle completes: `rates = {EUR: 0.9}`,
`missing = [NGN]`, the one conversion card shows `10 × 0.9 = 9`, and no
failure occurs (the trend and table are produced, empty since the historical
upstream raises every day). -/
theorem c10_end_to_end_example :
    runScript endToEndInput
      = { snapshot? := some ([("EUR", 9/10)], ["NGN"]),
          cards := [("EUR", 9)],
          trend? := some ([], []),
          tableCrash := false,
          table? := some [("EUR", ([], [])), ("NGN", ([], []))] } := by
  have hval : (10 : ℚ) * (9 / 10) = 9 := by norm_num
  have h : runScript endToEndInput
      = { snapshot? := some ([("EUR", 9/10)], ["NGN"]),
          cards := [("EUR", (10 : ℚ) * (9 / 10))],
          trend? := some ([], []),
          tableCrash := false,
          table? := some [("EUR", ([], [])), ("NGN", ([], []))] } := rfl
  rw [h, hval]

end CurrencyConverter
